import Mathlib

/-
Verification of the attendance parsing/aggregation pipeline
(attendance_parser_final.py and attendance_analysis_python.py).

The Python sources are shallowly embedded below:
  * parse_attendance_data / parse_branch_line  (attendance_parser_final.py)
  * calculate_monthly_attendance_averages      (attendance_analysis_python.py),
    split into its constituents: the dropna cleaning step, the two groupby
    rollups (branch-monthly, constituency-monthly) and the per-month
    top/bottom-5 ranking.

Numeric idealization: pandas/Python float arithmetic is modelled over ℚ,
with IEEE special values (inf, negative inf, NaN, which arise from division by zero
in pandas) modelled explicitly by the type PVal.  Rounding (pandas .round
and Python round) is modelled as round-half-to-even on exact rationals.
Python raising ZeroDivisionError is modelled by Except.error.
-/

attribute [local semireducible] Rat.add Rat.mul Rat.sub Rat.inv Rat.ofScientific

/-- Round-half-to-even to an integer (the rounding mode of Python round and
numpy/pandas .round, idealized over exact rationals). -/
def roundHE (q : ℚ) : ℤ :=
  let f := Rat.floor q
  let r := q - (f : ℚ)
  if r < 1/2 then f
  else if 1/2 < r then f + 1
  else if f % 2 = 0 then f else f + 1

/-- Round to d decimal places, half to even (model of round(x, d) and
pandas Series.round(d)). -/
def roundTo (d : ℕ) (q : ℚ) : ℚ := ((roundHE (q * 10 ^ d) : ℤ) : ℚ) / 10 ^ d

/-- A pandas float cell: either a rational number or one of the IEEE special
values that pandas produces silently on division by zero (inf, -inf, NaN).
NaN also stands for a missing value in an aggregate column. -/
inductive PVal where
  | num (q : ℚ)
  | inf
  | ninf
  | nan
deriving DecidableEq

/-- Float division as performed by pandas column arithmetic: division by an
exact zero silently yields a signed infinity (or NaN for 0/0). -/
def PVal.divP : PVal → PVal → PVal
  | .num a, .num b =>
      if b = 0 then (if 0 < a then .inf else if a < 0 then .ninf else .nan)
      else .num (a / b)
  | .num _, .inf => .num 0
  | .num _, .ninf => .num 0
  | .inf, .num b => if b < 0 then .ninf else .inf
  | .ninf, .num b => if b < 0 then .inf else .ninf
  | _, _ => .nan

/-- Multiplication of a pandas float cell by an exact rational constant. -/
def PVal.mulC : PVal → ℚ → PVal
  | .num a, c => .num (a * c)
  | .inf, c => if 0 < c then .inf else if c < 0 then .ninf else .nan
  | .ninf, c => if 0 < c then .ninf else if c < 0 then .inf else .nan
  | .nan, _ => .nan

/-- pandas .round(d) on a float cell: special values pass through. -/
def PVal.roundP (d : ℕ) : PVal → PVal
  | .num a => .num (roundTo d a)
  | v => v

/-- Whether a pandas float cell is an ordinary number. -/
def PVal.isNum : PVal → Bool
  | .num _ => true
  | _ => false

/- ===================== Parser (attendance_parser_final.py) ============== -/

/-- Whitespace as stripped by Python str.strip() and matched by the regex
class \s (ASCII part). -/
def isWs (c : Char) : Bool :=
  c == ' ' || c == '\t' || c == '\n' || c == '\r' || c == '\x0b' || c == '\x0c'

/-- Python str.strip(): remove leading and trailing whitespace. -/
def trimChars (l : List Char) : List Char :=
  ((l.dropWhile isWs).reverse.dropWhile isWs).reverse

/-- Python data.split(chr(10)): split a character list at newline characters,
keeping empty segments. -/
def splitNl (cs : List Char) : List (List Char) :=
  cs.foldr
    (fun c acc =>
      if c = '\n' then [] :: acc
      else
        match acc with
        | [] => [[c]]
        | g :: gs => (c :: g) :: gs)
    [[]]

/-- The record-line marker token (two code points, U+1F449 U+1F3FE). -/
def emojiMarker : List Char := ['👉', '🏾']

/-- Python line.replace(marker, chr(39)+chr(39)): delete every occurrence of
the two-character marker, scanning left to right. -/
def removeMarker : List Char → List Char
  | [] => []
  | [c] => [c]
  | c₁ :: c₂ :: cs =>
    if c₁ = '👉' ∧ c₂ = '🏾' then removeMarker cs
    else c₁ :: removeMarker (c₂ :: cs)

/-- Numeric value of a digit run, as Python int() on a decimal string. -/
def digitsToNat (l : List Char) : ℕ :=
  l.foldl (fun acc c => 10 * acc + (c.toNat - 48)) 0

/-- Matcher for the regex suffix after the lazy group: whitespace, a dash,
whitespace, digits, whitespace, a slash or pipe, whitespace, digits,
end of line.  Each star is deterministic here (maximal munch is complete
because the character class following each star is disjoint from it). -/
def matchRest (cs : List Char) : Option (ℕ × ℕ) :=
  match cs.dropWhile isWs with
  | '-' :: cs2 =>
    let cs3 := cs2.dropWhile isWs
    let d1 := cs3.takeWhile Char.isDigit
    if d1.isEmpty then none
    else
      match (cs3.dropWhile Char.isDigit).dropWhile isWs with
      | c :: cs6 =>
        if c = '/' ∨ c = '|' then
          let cs7 := cs6.dropWhile isWs
          let d2 := cs7.takeWhile Char.isDigit
          if d2.isEmpty then none
          else if (cs7.dropWhile Char.isDigit).isEmpty then
            some (digitsToNat d1, digitsToNat d2)
          else none
        else none
      | [] => none
  | _ => none

/-- The lazy group of the regex: try the shortest nonempty group-1 whose
remainder matches matchRest (leftmost-shortest semantics of a lazy plus
under full anchoring). -/
def findSplit : List Char → List Char → Option (List Char × ℕ × ℕ)
  | _, [] => none
  | g1rev, c :: rest =>
    match matchRest rest with
    | some p => some ((c :: g1rev).reverse, p.1, p.2)
    | none => findSplit (c :: g1rev) rest

/-- re.search of the anchored record pattern over the marker-stripped,
whitespace-trimmed line: returns (raw group 1, attendance, target). -/
def matchBranch (l : List Char) : Option (List Char × ℕ × ℕ) :=
  findSplit [] (trimChars (removeMarker l))

/-- One parsed attendance record (the dict built by parse_branch_line). -/
structure Record where
  Constituency : String
  Branch : String
  Pastor : String
  Attendance : ℕ
  Target : ℕ
  Attendance_rate : ℚ
  Month : String
  Week : String
  Year : String
deriving DecidableEq

/-- parse_branch_line: on a regex match build the record dict, computing the
rate as round(attendance / target * 100, 2); the Python division raises
ZeroDivisionError when the matched target is 0, modelled as Except.error.
On no match return None (.ok none). -/
def parse_branch_line (line : List Char) (constituency pastor month week year : String) :
    Except Unit (Option Record) :=
  match matchBranch line with
  | none => .ok none
  | some (nm, att, tgt) =>
    if tgt = 0 then .error ()
    else .ok (some
      { Constituency := constituency
        Branch := ⟨trimChars nm⟩
        Pastor := pastor
        Attendance := att
        Target := tgt
        Attendance_rate := roundTo 2 ((att : ℚ) / (tgt : ℚ) * 100)
        Month := month
        Week := week
        Year := year })

/-- Python truthiness of the current_constituency variable: None and the
empty string are falsy. -/
def truthy : Option String → Bool
  | none => false
  | some s => !(s == "")

/-- line.startswith(chr(42)) and line.endswith(chr(42)). -/
def isHeader (l : List Char) : Bool :=
  l.head? == some '*' && l.getLast? == some '*'

/-- Python line.strip(chr(42)): remove leading and trailing asterisks. -/
def stripStars (l : List Char) : List Char :=
  ((l.dropWhile (fun c => c == '*')).reverse.dropWhile (fun c => c == '*')).reverse

/-- line.startswith of the marker token. -/
def startsMarker (l : List Char) : Bool :=
  emojiMarker.isPrefixOf l

/-- The line loop of parse_attendance_data, threading the
current_constituency state; records are appended in line order and a
ZeroDivisionError from parse_branch_line aborts the whole call. -/
def scanLines (pastor month week year : String) :
    Option String → List (List Char) → Except Unit (List Record)
  | _, [] => .ok []
  | cur, l :: ls =>
    if isHeader l then
      scanLines pastor month week year (some ⟨stripStars l⟩) ls
    else if startsMarker l && truthy cur then
      match parse_branch_line l (cur.getD "") pastor month week year with
      | .error e => .error e
      | .ok none => scanLines pastor month week year cur ls
      | .ok (some r) => (scanLines pastor month week year cur ls).map (fun rs => r :: rs)
    else
      scanLines pastor month week year cur ls

/-- The line preprocessing of parse_attendance_data: split the raw text on
newlines, strip each line, and drop lines that are empty after stripping. -/
def processedLines (data : String) : List (List Char) :=
  ((splitNl data.data).map trimChars).filter (fun l => !l.isEmpty)

/-- parse_attendance_data(data, pastor, month, week, year). -/
def parse_attendance_data (data pastor month week year : String) :
    Except Unit (List Record) :=
  scanLines pastor month week year none (processedLines data)

deriving instance DecidableEq for Except

/- ======== Aggregator and ranker (attendance_analysis_python.py) ========= -/

/-- A row of the tabular input dataset read by
calculate_monthly_attendance_averages.  Every cell can be missing (NaN).
The Pastor column also present in the dataset is ignored by the analysis.
Attendance and Target are numeric cells; Week and Year are integer
identifiers and Month a string identifier, as written by the parser. -/
structure Row where
  Year : Option ℤ
  Month : Option String
  Constituency : Option String
  Branch : Option String
  Attendance : Option ℚ
  Target : Option ℚ
  Week : Option ℤ
deriving DecidableEq

/-- df.dropna(subset=[Constituency, Branch, Attendance]): keep exactly the
rows where those three cells are present. -/
def cleanRows (df : List Row) : List Row :=
  df.filter (fun r => r.Constituency.isSome && r.Branch.isSome && r.Attendance.isSome)

/-- Grouping key of the branch rollup: (Year, Month, Constituency, Branch). -/
abbrev BKey := ℤ × String × String × String

/-- Grouping key of the constituency rollup: (Year, Month, Constituency). -/
abbrev CKey := ℤ × String × String

/-- The branch-rollup group key of a row; none when any key cell is missing
(pandas groupby drops rows with a missing key). -/
def bkeyOf (r : Row) : Option BKey :=
  match r.Year, r.Month, r.Constituency, r.Branch with
  | some y, some m, some c, some b => some (y, m, c, b)
  | _, _, _, _ => none

/-- The constituency-rollup group key of a row; none when any key cell is
missing. -/
def ckeyOf (r : Row) : Option CKey :=
  match r.Year, r.Month, r.Constituency with
  | some y, some m, some c => some (y, m, c)
  | _, _, _ => none

/-- Stable insertion of x into a sorted list: x goes before the first
element b with le x b, so equal elements keep their original relative
order (the element inserted last, i.e. originally earlier, ends up first). -/
def insertLe {α : Type} (le : α → α → Bool) (x : α) : List α → List α
  | [] => [x]
  | b :: l => if le x b then x :: b :: l else b :: insertLe le x l

/-- Stable insertion sort by a Boolean comparison (the sort underlying both
the sorted groupby keys and the pandas nlargest/nsmallest selection). -/
def sortLe {α : Type} (le : α → α → Bool) : List α → List α
  | [] => []
  | x :: xs => insertLe le x (sortLe le xs)

/-- Code-point lexicographic comparison of strings as character lists
(the comparison Python uses on str group keys). -/
def leChars : List Char → List Char → Bool
  | [], _ => true
  | _ :: _, [] => false
  | c :: cs, d :: ds => if c = d then leChars cs ds else decide (c < d)

/-- Lexicographic order on branch-rollup keys (pandas groupby sorts the
group keys ascending). -/
def leBKey (a b : BKey) : Bool :=
  if a.1 = b.1 then
    if a.2.1 = b.2.1 then
      if a.2.2.1 = b.2.2.1 then leChars a.2.2.2.data b.2.2.2.data
      else leChars a.2.2.1.data b.2.2.1.data
    else leChars a.2.1.data b.2.1.data
  else decide (a.1 ≤ b.1)

/-- Lexicographic order on constituency-rollup keys. -/
def leCKey (a b : CKey) : Bool :=
  if a.1 = b.1 then
    if a.2.1 = b.2.1 then leChars a.2.2.data b.2.2.data
    else leChars a.2.1.data b.2.1.data
  else decide (a.1 ≤ b.1)

/-- The rows of the cleaned table belonging to a branch-rollup group
(pandas groupby preserves the original row order inside each group). -/
def bgroup (rows : List Row) (k : BKey) : List Row :=
  rows.filter (fun r => decide (bkeyOf r = some k))

/-- The rows of the cleaned table belonging to a constituency-rollup group. -/
def cgroup (rows : List Row) (k : CKey) : List Row :=
  rows.filter (fun r => decide (ckeyOf r = some k))

/-- Maximum of two rationals (right-biased like pandas max over a column). -/
def qmax (a b : ℚ) : ℚ := if a ≤ b then b else a

/-- pandas Series.max with skipna: maximum of the present values, NaN (none)
when no value is present. -/
def listMax : List ℚ → Option ℚ
  | [] => none
  | x :: xs =>
    match listMax xs with
    | none => some x
    | some m => some (qmax x m)

/-- One row of the Branch_Monthly sheet. -/
structure BranchRow where
  Year : ℤ
  Month : String
  Constituency : String
  Branch : String
  Monthly_Attendance_Avg : PVal
  Target : PVal
  Attendance_Rate : PVal
deriving DecidableEq

/-- The Attendance column of one branch-rollup group (present cells only,
as pandas aggregation skips NaN). -/
def battsOf (rows : List Row) (k : BKey) : List ℚ :=
  (bgroup rows k).filterMap (fun r => r.Attendance)

/-- The Target column of one branch-rollup group (present cells only). -/
def btgtsOf (rows : List Row) (k : BKey) : List ℚ :=
  (bgroup rows k).filterMap (fun r => r.Target)

/-- The Monthly_Attendance_Avg cell of a branch-rollup row: the mean of the
attendance cells of the group rounded to 2 decimals (NaN for an all-missing
column, which cannot happen on cleaned input). -/
def bAvg (rows : List Row) (k : BKey) : PVal :=
  if (battsOf rows k).isEmpty then .nan
  else .num (roundTo 2 ((battsOf rows k).sum / ((battsOf rows k).length : ℚ)))

/-- The Target cell of a branch-rollup row: the max of the Target cells of the group
cells, rounded to 2 decimals by the agg .round(2). -/
def bTgt (rows : List Row) (k : BKey) : PVal :=
  match listMax (btgtsOf rows k) with
  | none => .nan
  | some t => .num (roundTo 2 t)

/-- The branch-monthly aggregate of one group: mean of the Attendance cells
and max of the Target cells, both rounded to 2 decimals, then
Attendance_Rate = (avg / target * 100).round(2). -/
def mkBranchRow (rows : List Row) (k : BKey) : BranchRow :=
  { Year := k.1, Month := k.2.1, Constituency := k.2.2.1, Branch := k.2.2.2,
    Monthly_Attendance_Avg := bAvg rows k, Target := bTgt rows k,
    Attendance_Rate := (((bAvg rows k).divP (bTgt rows k)).mulC 100).roundP 2 }

/-- branch_monthly: clean the table, group by (Year, Month, Constituency,
Branch) with sorted group keys, and aggregate each group. -/
def branch_monthly (df : List Row) : List BranchRow :=
  let dfc := cleanRows df
  (sortLe leBKey ((dfc.filterMap bkeyOf).dedup)).map (fun k => mkBranchRow dfc k)

/-- One row of the Constituency_Monthly sheet (Reports_Count,
Total_Attendance and Total_Target are intermediate columns dropped from the
final table; Unique_Branches is retained). -/
structure ConstRow where
  Year : ℤ
  Month : String
  Constituency : String
  Unique_Branches : ℕ
  Monthly_Attendance_Avg : PVal
  Target : PVal
  Attendance_Rate : PVal
deriving DecidableEq

/-- The Reports_Count column of the constituency rollup: the aggregation of
the Week column is nunique, the number of distinct present Week values of
the group (not the number of records of the group). -/
def reportsCount (rows : List Row) (k : CKey) : ℕ :=
  ((cgroup rows k).filterMap (fun r => r.Week)).dedup.length

/-- The Attendance column of one constituency-rollup group. -/
def cgAtts (rows : List Row) (k : CKey) : List ℚ :=
  (cgroup rows k).filterMap (fun r => r.Attendance)

/-- The Target column of one constituency-rollup group. -/
def cgTgts (rows : List Row) (k : CKey) : List ℚ :=
  (cgroup rows k).filterMap (fun r => r.Target)

/-- The Unique_Branches column: nunique of the Branch cells of the group. -/
def cBranches (rows : List Row) (k : CKey) : ℕ :=
  ((cgroup rows k).filterMap (fun r => r.Branch)).dedup.length

/-- The Monthly_Attendance_Avg cell of a constituency-rollup row:
(Total_Attendance / Reports_Count).round(2), where Total_Attendance is the
Attendance sum of the group (rounded to 2 by the agg .round(2)) and
Reports_Count is the nunique of Week; a zero Reports_Count produces a
silent infinity or NaN exactly as pandas float division does. -/
def cAvg (rows : List Row) (k : CKey) : PVal :=
  (PVal.divP (.num (roundTo 2 (cgAtts rows k).sum))
    (.num ((reportsCount rows k : ℕ) : ℚ))).roundP 2

/-- The Target cell of a constituency-rollup row:
(Total_Target / Reports_Count).round(0). -/
def cTgt (rows : List Row) (k : CKey) : PVal :=
  (PVal.divP (.num (roundTo 2 (cgTgts rows k).sum))
    (.num ((reportsCount rows k : ℕ) : ℚ))).roundP 0

/-- The constituency-monthly aggregate of one group: Reports_Count =
nunique of Week, Total_Attendance and Total_Target = sums, Unique_Branches
= nunique of Branch; then Monthly_Attendance_Avg =
(Total_Attendance / Reports_Count).round(2), Target =
(Total_Target / Reports_Count).round(0) and Attendance_Rate =
(avg / target * 100).round(2). -/
def mkConstRow (rows : List Row) (k : CKey) : ConstRow :=
  { Year := k.1, Month := k.2.1, Constituency := k.2.2,
    Unique_Branches := cBranches rows k,
    Monthly_Attendance_Avg := cAvg rows k, Target := cTgt rows k,
    Attendance_Rate := (((cAvg rows k).divP (cTgt rows k)).mulC 100).roundP 2 }

/-- constituency_monthly: clean the table, group by (Year, Month,
Constituency) with sorted group keys, and aggregate each group. -/
def constituency_monthly (df : List Row) : List ConstRow :=
  let dfc := cleanRows df
  (sortLe leCKey ((dfc.filterMap ckeyOf).dedup)).map (fun k => mkConstRow dfc k)

/-- The numeric value of the Monthly_Attendance_Avg cell used as sort key by
nlargest/nsmallest.  Every row produced by branch_monthly has a numeric
average (its group is nonempty and Attendance is present after cleaning),
so the default branch is never reached on pipeline tables. -/
def avgQ (r : BranchRow) : ℚ :=
  match r.Monthly_Attendance_Avg with
  | .num q => q
  | _ => 0

/-- Comparison for nlargest: descending by average, ties keeping the
earlier row first (pandas keep equal to first). -/
def leAvgDesc (a b : BranchRow) : Bool := decide (avgQ b ≤ avgQ a)

/-- Comparison for nsmallest: ascending by average, ties keeping the
earlier row first. -/
def leAvgAsc (a b : BranchRow) : Bool := decide (avgQ a ≤ avgQ b)

/-- pandas DataFrame.nlargest(n, Monthly_Attendance_Avg): the first n rows
of the stable descending sort. -/
def nlargestBy (n : ℕ) (rows : List BranchRow) : List BranchRow :=
  (sortLe leAvgDesc rows).take n

/-- pandas DataFrame.nsmallest(n, Monthly_Attendance_Avg): the first n rows
of the stable ascending sort. -/
def nsmallestBy (n : ℕ) (rows : List BranchRow) : List BranchRow :=
  (sortLe leAvgAsc rows).take n

/-- The rows of the branch-rollup table belonging to one Month value (the
group fed to nlargest/nsmallest by groupby(Month).apply; note the grouping
is by Month alone, globally across constituencies and years). -/
def monthRows (tbl : List BranchRow) (m : String) : List BranchRow :=
  tbl.filter (fun r => r.Month == m)

/-- The per-month selection done inside groupby(Month).apply(nlargest n):
all rows of the given month, ranked globally across constituencies. -/
def topPerformersFor (tbl : List BranchRow) (m : String) (n : ℕ) : List BranchRow :=
  nlargestBy n (monthRows tbl m)

/-- The per-month selection done inside groupby(Month).apply(nsmallest n). -/
def lowPerformersFor (tbl : List BranchRow) (m : String) (n : ℕ) : List BranchRow :=
  nsmallestBy n (monthRows tbl m)

/-- top_performing_branches for one month value (the source hardcodes n=5). -/
def top_performing_branches (tbl : List BranchRow) (m : String) : List BranchRow :=
  topPerformersFor tbl m 5

/-- low_performing_branches for one month value (the source hardcodes n=5). -/
def low_performing_branches (tbl : List BranchRow) (m : String) : List BranchRow :=
  lowPerformersFor tbl m 5

/-- The key cells of a branch-rollup output row. -/
def bkeyOfRow (r : BranchRow) : BKey := (r.Year, r.Month, r.Constituency, r.Branch)

/-- Find the (unique) branch-rollup output row with a given key. -/
def lookupB (tbl : List BranchRow) (k : BKey) : Option BranchRow :=
  tbl.find? (fun r => decide (bkeyOfRow r = k))

/-- The key cells of a constituency-rollup output row. -/
def ckeyOfRow (r : ConstRow) : CKey := (r.Year, r.Month, r.Constituency)

/-- Find the (unique) constituency-rollup output row with a given key. -/
def lookupC (tbl : List ConstRow) (k : CKey) : Option ConstRow :=
  tbl.find? (fun r => decide (ckeyOfRow r = k))

example :
    branch_monthly
      [{ Year := some 2025, Month := some "July", Constituency := some "C1",
         Branch := some "B1", Attendance := some 4, Target := some 10, Week := some 1 },
       { Year := some 2025, Month := some "July", Constituency := some "C1",
         Branch := some "B1", Attendance := some 6, Target := some 10, Week := some 2 },
       { Year := some 2025, Month := some "July", Constituency := some "C1",
         Branch := some "B1", Attendance := some 8, Target := some 12, Week := some 3 }] =
    [{ Year := 2025, Month := "July", Constituency := "C1", Branch := "B1",
       Monthly_Attendance_Avg := .num 6, Target := .num 12,
       Attendance_Rate := .num 50 }] := by decide

example :
    constituency_monthly
      [{ Year := some 2025, Month := some "July", Constituency := some "C1",
         Branch := some "B1", Attendance := some 4, Target := some 10, Week := some 1 },
       { Year := some 2025, Month := some "July", Constituency := some "C1",
         Branch := some "B2", Attendance := some 6, Target := some 12, Week := some 1 }] =
    [{ Year := 2025, Month := "July", Constituency := "C1", Unique_Branches := 2,
       Monthly_Attendance_Avg := .num 10, Target := .num 22,
       Attendance_Rate := .num 45.45 }] := by decide

example :
    branch_monthly
      [{ Year := some 2025, Month := some "July", Constituency := some "C1",
         Branch := some "B1", Attendance := some 5, Target := some 0, Week := some 1 }] =
    [{ Year := 2025, Month := "July", Constituency := "C1", Branch := "B1",
       Monthly_Attendance_Avg := .num 5, Target := .num 0,
       Attendance_Rate := .inf }] := by decide

/- ============================ Lemma layer ============================== -/

theorem insertLe_perm {α : Type} (le : α → α → Bool) (x : α) (l : List α) :
    (insertLe le x l).Perm (x :: l) := by
  induction l with
  | nil => simp [insertLe]
  | cons b l ih =>
    simp only [insertLe]
    by_cases h : le x b = true
    · simp [h]
    · simp only [h, if_false]
      exact ((ih.cons b).trans (List.Perm.swap x b l))

theorem sortLe_perm {α : Type} (le : α → α → Bool) (l : List α) :
    (sortLe le l).Perm l := by
  induction l with
  | nil => simp [sortLe]
  | cons x xs ih => exact (insertLe_perm le x (sortLe le xs)).trans (ih.cons x)

theorem mem_sortLe {α : Type} (le : α → α → Bool) (x : α) (l : List α) :
    x ∈ sortLe le l ↔ x ∈ l :=
  (sortLe_perm le l).mem_iff

theorem length_sortLe {α : Type} (le : α → α → Bool) (l : List α) :
    (sortLe le l).length = l.length :=
  (sortLe_perm le l).length_eq

theorem pairwise_insertLe {α : Type} {le : α → α → Bool}
    (htrans : ∀ a b c, le a b = true → le b c = true → le a c = true)
    (htot : ∀ a b, le a b = true ∨ le b a = true)
    (x : α) (l : List α) (hl : l.Pairwise (fun a b => le a b = true)) :
    (insertLe le x l).Pairwise (fun a b => le a b = true) := by
  induction l with
  | nil => simp [insertLe]
  | cons b l ih =>
    rcases List.pairwise_cons.mp hl with ⟨hb, hl'⟩
    simp only [insertLe]
    by_cases h : le x b = true
    · rw [if_pos h]
      refine List.pairwise_cons.mpr ⟨?_, hl⟩
      intro c hc
      cases hc with
      | head => exact h
      | tail _ hc => exact htrans x b c h (hb c hc)
    · rw [if_neg h]
      have hbx : le b x = true := (htot x b).resolve_left h
      refine List.pairwise_cons.mpr ⟨?_, ih hl'⟩
      intro c hc
      have hc' := (insertLe_perm le x l).mem_iff.mp hc
      cases hc' with
      | head => exact hbx
      | tail _ hcl => exact hb c hcl

theorem pairwise_sortLe {α : Type} {le : α → α → Bool}
    (htrans : ∀ a b c, le a b = true → le b c = true → le a c = true)
    (htot : ∀ a b, le a b = true ∨ le b a = true)
    (l : List α) :
    (sortLe le l).Pairwise (fun a b => le a b = true) := by
  induction l with
  | nil => simp [sortLe]
  | cons x xs ih => exact pairwise_insertLe htrans htot x (sortLe le xs) ih

theorem filter_insertLe {α : Type} {le : α → α → Bool} {k : α → ℚ}
    (hle : ∀ a b, k a = k b → le a b = true)
    (q : ℚ) (x : α) (l : List α) :
    (insertLe le x l).filter (fun y => decide (k y = q)) =
      if k x = q then x :: l.filter (fun y => decide (k y = q))
      else l.filter (fun y => decide (k y = q)) := by
  induction l with
  | nil =>
    by_cases hx : k x = q <;> simp [insertLe, hx]
  | cons b l ih =>
    simp only [insertLe]
    by_cases h : le x b = true
    · rw [if_pos h]
      by_cases hx : k x = q <;> by_cases hb : k b = q <;>
        simp [List.filter_cons, hx, hb]
    · rw [if_neg h]
      have hkxb : k x ≠ k b := fun he => h (hle x b he)
      by_cases hb : k b = q
      · have hx : ¬ (k x = q) := fun hx => hkxb (hx.trans hb.symm)
        simp [List.filter_cons, hb, hx, ih]
      · by_cases hx : k x = q <;> simp [List.filter_cons, hb, hx, ih]

theorem filter_sortLe {α : Type} {le : α → α → Bool} {k : α → ℚ}
    (hle : ∀ a b, k a = k b → le a b = true)
    (q : ℚ) (l : List α) :
    (sortLe le l).filter (fun y => decide (k y = q)) =
      l.filter (fun y => decide (k y = q)) := by
  induction l with
  | nil => simp [sortLe]
  | cons x xs ih =>
    simp only [sortLe]
    rw [filter_insertLe hle, ih]
    by_cases hx : k x = q <;> simp [List.filter, hx]

theorem find_map_keys {κ α : Type} [DecidableEq κ] (key : α → κ) (f : κ → α)
    (hf : ∀ k, key (f k) = k) :
    ∀ (ks : List κ) (k : κ), k ∈ ks →
      (ks.map f).find? (fun r => decide (key r = k)) = some (f k) := by
  intro ks
  induction ks with
  | nil => intro k hk; cases hk
  | cons k₁ ks ih =>
    intro k hk
    by_cases h : k₁ = k
    · subst h
      simp [List.map_cons, List.find?_cons, hf]
    · have hk' : k ∈ ks := by
        cases hk with
        | head => exact absurd rfl h
        | tail _ htl => exact htl
      simp [List.map_cons, List.find?_cons, hf, h, ih k hk']

theorem listMax_mem : ∀ (l : List ℚ) (m : ℚ), listMax l = some m → m ∈ l := by
  intro l
  induction l with
  | nil => intro m h; cases h
  | cons x xs ih =>
    intro m h
    simp only [listMax] at h
    cases hx : listMax xs with
    | none => rw [hx] at h; injection h with h; exact h ▸ List.mem_cons_self x xs
    | some m' =>
      rw [hx] at h
      injection h with h
      unfold qmax at h
      by_cases hle : x ≤ m'
      · rw [if_pos hle] at h
        exact List.mem_cons_of_mem x (h ▸ ih m' hx)
      · rw [if_neg hle] at h
        exact h ▸ List.mem_cons_self x xs

theorem ratFloor_intCast (n : ℤ) : Rat.floor ((n : ℤ) : ℚ) = n := by
  rw [Rat.floor_def']
  simp

theorem roundHE_intCast (n : ℤ) : roundHE ((n : ℤ) : ℚ) = n := by
  simp only [roundHE, ratFloor_intCast]
  norm_num

theorem roundTo_den_one (d : ℕ) (q : ℚ) (h : q.den = 1) : roundTo d q = q := by
  obtain ⟨n, rfl⟩ : ∃ n : ℤ, q = (n : ℚ) := ⟨q.num, ((Rat.den_eq_one_iff q).mp h).symm⟩
  unfold roundTo
  have h10 : ((n : ℚ) * 10 ^ d) = (((n * 10 ^ d : ℤ) : ℤ) : ℚ) := by push_cast; ring
  rw [h10, roundHE_intCast]
  have hne : ((10 : ℚ)) ^ d ≠ 0 := by positivity
  field_simp

theorem listSum_den_one : ∀ (l : List ℚ), (∀ q ∈ l, q.den = 1) → (l.sum).den = 1 := by
  intro l
  induction l with
  | nil => intro _; simp
  | cons x xs ih =>
    intro h
    have hx : x.den = 1 := h x (List.mem_cons_self x xs)
    have hs : (xs.sum).den = 1 := ih (fun q hq => h q (List.mem_cons_of_mem x hq))
    obtain ⟨a, ha⟩ : ∃ a : ℤ, x = (a : ℚ) := ⟨x.num, ((Rat.den_eq_one_iff x).mp hx).symm⟩
    obtain ⟨b, hb⟩ : ∃ b : ℤ, xs.sum = (b : ℚ) :=
      ⟨(xs.sum).num, ((Rat.den_eq_one_iff xs.sum).mp hs).symm⟩
    have : (x :: xs).sum = ((a + b : ℤ) : ℚ) := by
      simp [ha, hb]
    rw [this, Rat.intCast_den]

theorem startsMarker_not_header (l : List Char) (h : startsMarker l = true) :
    isHeader l = false := by
  cases l with
  | nil => simp [startsMarker, emojiMarker, List.isPrefixOf] at h
  | cons c cs =>
    have hc : c = '👉' := by
      simp only [startsMarker, emojiMarker, List.isPrefixOf, Bool.and_eq_true,
        beq_iff_eq] at h
      exact h.1.symm
    subst hc
    simp [isHeader]

theorem parse_branch_line_eq_none (l : List Char) (c p m w y : String)
    (hm : matchBranch l = none) :
    parse_branch_line l c p m w y = .ok none := by
  unfold parse_branch_line; rw [hm]

theorem parse_branch_line_eq_some (l : List Char) (c p m w y : String)
    (nm : List Char) (att tgt : ℕ) (hm : matchBranch l = some (nm, att, tgt)) :
    parse_branch_line l c p m w y =
      if tgt = 0 then .error ()
      else .ok (some
        { Constituency := c
          Branch := ⟨trimChars nm⟩
          Pastor := p
          Attendance := att
          Target := tgt
          Attendance_rate := roundTo 2 ((att : ℚ) / (tgt : ℚ) * 100)
          Month := m
          Week := w
          Year := y }) := by
  unfold parse_branch_line; rw [hm]

theorem parse_branch_line_ok_some (l : List Char) (c p m w y : String) (r : Record)
    (h : parse_branch_line l c p m w y = .ok (some r)) :
    0 < r.Target ∧
      r.Attendance_rate = roundTo 2 ((r.Attendance : ℚ) / (r.Target : ℚ) * 100) := by
  cases hm : matchBranch l with
  | none => rw [parse_branch_line_eq_none l c p m w y hm] at h; simp at h
  | some v =>
    obtain ⟨nm, att, tgt⟩ := v
    rw [parse_branch_line_eq_some l c p m w y nm att tgt hm] at h
    by_cases ht : tgt = 0
    · rw [if_pos ht] at h; cases h
    · rw [if_neg ht] at h
      injection h with h
      injection h with h
      subst h
      exact ⟨Nat.pos_of_ne_zero ht, rfl⟩

theorem scanLines_records (p m w y : String) :
    ∀ (ls : List (List Char)) (cur : Option String) (recs : List Record),
      scanLines p m w y cur ls = .ok recs →
      ∀ r ∈ recs, 0 < r.Target ∧
        r.Attendance_rate = roundTo 2 ((r.Attendance : ℚ) / (r.Target : ℚ) * 100) := by
  intro ls
  induction ls with
  | nil =>
    intro cur recs h r hr
    simp only [scanLines] at h
    injection h with h
    subst h
    cases hr
  | cons l ls ih =>
    intro cur recs h r hr
    simp only [scanLines] at h
    by_cases hh : isHeader l = true
    · rw [if_pos hh] at h
      exact ih _ _ h r hr
    · rw [if_neg hh] at h
      by_cases hm : (startsMarker l && truthy cur) = true
      · rw [if_pos hm] at h
        cases hpb : parse_branch_line l (cur.getD "") p m w y with
        | error e => rw [hpb] at h; cases h
        | ok o =>
          rw [hpb] at h
          cases o with
          | none => exact ih _ _ h r hr
          | some r₀ =>
            cases hs : scanLines p m w y cur ls with
            | error e => rw [hs] at h; cases h
            | ok recs' =>
              rw [hs] at h
              injection h with h
              subst h
              cases hr with
              | head => exact parse_branch_line_ok_some l _ p m w y r hpb
              | tail _ hr => exact ih _ _ hs r hr
      · rw [if_neg hm] at h
        exact ih _ _ h r hr

/-- A processed line whose regex match carries a zero target (the only
line shape on which parse_branch_line raises). -/
def zeroTargetLine (l : List Char) : Bool :=
  match matchBranch l with
  | some (_, _, t) => decide (t = 0)
  | none => false

theorem scanLines_no_zero_total (p m w y : String) :
    ∀ (ls : List (List Char)) (cur : Option String),
      (∀ l ∈ ls, zeroTargetLine l = false) →
      ∃ recs, scanLines p m w y cur ls = .ok recs := by
  intro ls
  induction ls with
  | nil => intro cur _; exact ⟨[], rfl⟩
  | cons l ls ih =>
    intro cur h
    have hl : zeroTargetLine l = false := h l (List.mem_cons_self l ls)
    have hls : ∀ x ∈ ls, zeroTargetLine x = false :=
      fun x hx => h x (List.mem_cons_of_mem l hx)
    simp only [scanLines]
    by_cases hh : isHeader l = true
    · rw [if_pos hh]; exact ih _ hls
    · rw [if_neg hh]
      by_cases hm : (startsMarker l && truthy cur) = true
      · rw [if_pos hm]
        cases hpb : parse_branch_line l (cur.getD "") p m w y with
        | error e =>
          exfalso
          cases hmb : matchBranch l with
          | none =>
            rw [parse_branch_line_eq_none l (cur.getD "") p m w y hmb] at hpb
            cases hpb
          | some v =>
            obtain ⟨nm, att, tgt⟩ := v
            rw [parse_branch_line_eq_some l (cur.getD "") p m w y nm att tgt hmb] at hpb
            by_cases ht : tgt = 0
            · unfold zeroTargetLine at hl
              rw [hmb] at hl
              simp [ht] at hl
            · rw [if_neg ht] at hpb; cases hpb
        | ok o =>
          cases o with
          | none => exact ih cur hls
          | some r =>
            obtain ⟨recs, hr⟩ := ih cur hls
            exact ⟨r :: recs, by rw [hr]; rfl⟩
      · rw [if_neg hm]; exact ih _ hls

theorem scanLines_all_marker (p m w y : String) :
    ∀ (ls : List (List Char)),
      (∀ l ∈ ls, startsMarker l = true) →
      scanLines p m w y none ls = .ok [] := by
  intro ls
  induction ls with
  | nil => intro _; rfl
  | cons l ls ih =>
    intro h
    have hl : startsMarker l = true := h l (List.mem_cons_self l ls)
    have hh : isHeader l = false := startsMarker_not_header l hl
    simp only [scanLines]
    rw [if_neg (by simp [hh])]
    rw [if_neg (by simp [truthy])]
    exact ih (fun x hx => h x (List.mem_cons_of_mem l hx))

theorem scanLines_skip_malformed (p m w y : String) (lc : List Char)
    (h1 : startsMarker lc = true) (h2 : matchBranch lc = none) :
    ∀ (ls1 : List (List Char)) (cur : Option String) (ls2 : List (List Char)),
      scanLines p m w y cur (ls1 ++ lc :: ls2) =
        scanLines p m w y cur (ls1 ++ ls2) := by
  intro ls1
  induction ls1 with
  | nil =>
    intro cur ls2
    simp only [List.nil_append]
    have hh : isHeader lc = false := startsMarker_not_header lc h1
    have hpb : parse_branch_line lc (cur.getD "") p m w y = .ok none := by
      unfold parse_branch_line; rw [h2]
    simp only [scanLines]
    rw [if_neg (by simp [hh])]
    by_cases ht : truthy cur = true
    · rw [if_pos (by simp [h1, ht]), hpb]
    · have ht' : truthy cur = false := by
        revert ht; cases truthy cur <;> simp
      rw [if_neg (by simp [ht'])]
  | cons a ls1 ih =>
    intro cur ls2
    simp only [List.cons_append, scanLines]
    by_cases hh : isHeader a = true
    · rw [if_pos hh, if_pos hh]
      exact ih _ ls2
    · rw [if_neg hh, if_neg hh]
      by_cases hm : (startsMarker a && truthy cur) = true
      · rw [if_pos hm, if_pos hm]
        cases hpb : parse_branch_line a (cur.getD "") p m w y with
        | error e => rfl
        | ok o =>
          cases o with
          | none => exact ih cur ls2
          | some r => exact congrArg (Except.map fun rs => r :: rs) (ih cur ls2)
      · rw [if_neg hm, if_neg hm]; exact ih cur ls2

theorem splitNl_cons (c : Char) (cs : List Char) :
    splitNl (c :: cs) =
      if c = '\n' then [] :: splitNl cs
      else
        match splitNl cs with
        | [] => [[c]]
        | g :: gs => (c :: g) :: gs := rfl

theorem splitNl_ne_nil : ∀ cs : List Char, splitNl cs ≠ [] := by
  intro cs
  induction cs with
  | nil => simp [splitNl]
  | cons c cs ih =>
    rw [splitNl_cons]
    by_cases hc : c = '\n'
    · simp [hc]
    · rw [if_neg hc]
      cases h : splitNl cs with
      | nil => exact absurd h ih
      | cons g gs => simp

theorem splitNl_append (a b : List Char) :
    splitNl (a ++ '\n' :: b) = splitNl a ++ splitNl b := by
  induction a with
  | nil =>
    rw [List.nil_append, splitNl_cons, if_pos rfl]
    rfl
  | cons c a ih =>
    rw [List.cons_append, splitNl_cons, ih, splitNl_cons]
    by_cases hc : c = '\n'
    · simp [hc]
    · rw [if_neg hc, if_neg hc]
      cases h : splitNl a with
      | nil => exact absurd h (splitNl_ne_nil a)
      | cons g gs => simp

theorem splitNl_no_newline : ∀ cs : List Char, '\n' ∉ cs → splitNl cs = [cs] := by
  intro cs
  induction cs with
  | nil => intro _; rfl
  | cons c cs ih =>
    intro h
    have hc : c ≠ '\n' := fun he => h (he ▸ List.mem_cons_self c cs)
    have hcs : '\n' ∉ cs := fun hm => h (List.mem_cons_of_mem c hm)
    rw [splitNl_cons, if_neg hc, ih hcs]

theorem processedLines_append (pre post : String) :
    processedLines (pre ++ "\n" ++ post) = processedLines pre ++ processedLines post := by
  unfold processedLines
  have hdata : (pre ++ "\n" ++ post).data = pre.data ++ '\n' :: post.data := by
    simp [String.data_append]
  rw [hdata, splitNl_append, List.map_append, List.filter_append]

theorem mem_bkeys_of_witness (df : List Row) (k : BKey)
    (hk : some k ∈ (cleanRows df).map bkeyOf) :
    k ∈ (cleanRows df).filterMap bkeyOf := by
  rcases List.mem_map.mp hk with ⟨r, hr, heq⟩
  exact List.mem_filterMap.mpr ⟨r, hr, heq⟩

theorem lookupB_branch_monthly (df : List Row) (k : BKey)
    (hk : some k ∈ (cleanRows df).map bkeyOf) :
    lookupB (branch_monthly df) k = some (mkBranchRow (cleanRows df) k) := by
  unfold lookupB branch_monthly
  refine find_map_keys bkeyOfRow (mkBranchRow (cleanRows df)) (fun k' => rfl) _ k ?_
  rw [mem_sortLe, List.mem_dedup]
  exact mem_bkeys_of_witness df k hk

theorem mem_ckeys_of_witness (df : List Row) (k : CKey)
    (hk : some k ∈ (cleanRows df).map ckeyOf) :
    k ∈ (cleanRows df).filterMap ckeyOf := by
  rcases List.mem_map.mp hk with ⟨r, hr, heq⟩
  exact List.mem_filterMap.mpr ⟨r, hr, heq⟩

theorem lookupC_constituency_monthly (df : List Row) (k : CKey)
    (hk : some k ∈ (cleanRows df).map ckeyOf) :
    lookupC (constituency_monthly df) k = some (mkConstRow (cleanRows df) k) := by
  unfold lookupC constituency_monthly
  refine find_map_keys ckeyOfRow (mkConstRow (cleanRows df)) (fun k' => rfl) _ k ?_
  rw [mem_sortLe, List.mem_dedup]
  exact mem_ckeys_of_witness df k hk

example : parse_attendance_data "*A*\n👉🏾B - 5/10" "p" "m" "w" "y" =
    .ok [{ Constituency := "A", Branch := "B", Pastor := "p", Attendance := 5,
           Target := 10, Attendance_rate := 50, Month := "m", Week := "w",
           Year := "y" }] := by decide

example : parse_attendance_data "*A*\n👉🏾B - 5/0" "p" "m" "w" "y" = .error () := by decide

example : parse_attendance_data "👉🏾B - 5/10\njunk" "p" "m" "w" "y" = .ok [] := by decide

example : parse_attendance_data "*CONSTITUENCY_NAME*\n👉🏾Branch 1 - 10|15\n👉🏾Branch 2 - 8/12" "p" "July" "5" "2025" =
    .ok [{ Constituency := "CONSTITUENCY_NAME", Branch := "Branch 1", Pastor := "p",
           Attendance := 10, Target := 15, Attendance_rate := 66.67, Month := "July",
           Week := "5", Year := "2025" },
         { Constituency := "CONSTITUENCY_NAME", Branch := "Branch 2", Pastor := "p",
           Attendance := 8, Target := 12, Attendance_rate := 66.67, Month := "July",
           Week := "5", Year := "2025" }] := by decide

theorem leAvgDesc_trans (a b c : BranchRow)
    (h1 : leAvgDesc a b = true) (h2 : leAvgDesc b c = true) : leAvgDesc a c = true := by
  simp only [leAvgDesc, decide_eq_true_eq] at h1 h2 ⊢
  exact le_trans h2 h1

theorem leAvgDesc_total (a b : BranchRow) : leAvgDesc a b = true ∨ leAvgDesc b a = true := by
  simp only [leAvgDesc, decide_eq_true_eq]
  exact le_total (avgQ b) (avgQ a)

theorem leAvgDesc_of_eq (a b : BranchRow) (h : avgQ a = avgQ b) : leAvgDesc a b = true := by
  simp only [leAvgDesc, decide_eq_true_eq]
  exact le_of_eq h.symm

theorem leAvgAsc_trans (a b c : BranchRow)
    (h1 : leAvgAsc a b = true) (h2 : leAvgAsc b c = true) : leAvgAsc a c = true := by
  simp only [leAvgAsc, decide_eq_true_eq] at h1 h2 ⊢
  exact le_trans h1 h2

theorem leAvgAsc_total (a b : BranchRow) : leAvgAsc a b = true ∨ leAvgAsc b a = true := by
  simp only [leAvgAsc, decide_eq_true_eq]
  exact le_total (avgQ a) (avgQ b)

theorem leAvgAsc_of_eq (a b : BranchRow) (h : avgQ a = avgQ b) : leAvgAsc a b = true := by
  simp only [leAvgAsc, decide_eq_true_eq]
  exact le_of_eq h

theorem sortDesc_pairwise (l : List BranchRow) :
    (sortLe leAvgDesc l).Pairwise (fun a b => avgQ b ≤ avgQ a) :=
  (pairwise_sortLe leAvgDesc_trans leAvgDesc_total l).imp
    (fun h => by simpa [leAvgDesc, decide_eq_true_eq] using h)

theorem sortAsc_pairwise (l : List BranchRow) :
    (sortLe leAvgAsc l).Pairwise (fun a b => avgQ a ≤ avgQ b) :=
  (pairwise_sortLe leAvgAsc_trans leAvgAsc_total l).imp
    (fun h => by simpa [leAvgAsc, decide_eq_true_eq] using h)

theorem top_selection_maximal (mr : List BranchRow) (n : ℕ) :
    ∀ r ∈ (sortLe leAvgDesc mr).take n, ∀ s ∈ mr,
      s ∉ (sortLe leAvgDesc mr).take n → avgQ s ≤ avgQ r := by
  intro r hr s hs hns
  have hpw2 : ((sortLe leAvgDesc mr).take n ++ (sortLe leAvgDesc mr).drop n).Pairwise
      (fun a b => avgQ b ≤ avgQ a) := by
    rw [List.take_append_drop]
    exact sortDesc_pairwise mr
  have hsD : s ∈ (sortLe leAvgDesc mr).take n ++ (sortLe leAvgDesc mr).drop n := by
    rw [List.take_append_drop]
    exact (mem_sortLe leAvgDesc s mr).mpr hs
  have hsd : s ∈ (sortLe leAvgDesc mr).drop n := by
    rcases List.mem_append.mp hsD with h | h
    · exact absurd h hns
    · exact h
  exact (List.pairwise_append.mp hpw2).2.2 r hr s hsd

theorem low_selection_minimal (mr : List BranchRow) (n : ℕ) :
    ∀ r ∈ (sortLe leAvgAsc mr).take n, ∀ s ∈ mr,
      s ∉ (sortLe leAvgAsc mr).take n → avgQ r ≤ avgQ s := by
  intro r hr s hs hns
  have hpw2 : ((sortLe leAvgAsc mr).take n ++ (sortLe leAvgAsc mr).drop n).Pairwise
      (fun a b => avgQ a ≤ avgQ b) := by
    rw [List.take_append_drop]
    exact sortAsc_pairwise mr
  have hsD : s ∈ (sortLe leAvgAsc mr).take n ++ (sortLe leAvgAsc mr).drop n := by
    rw [List.take_append_drop]
    exact (mem_sortLe leAvgAsc s mr).mpr hs
  have hsd : s ∈ (sortLe leAvgAsc mr).drop n := by
    rcases List.mem_append.mp hsD with h | h
    · exact absurd h hns
    · exact h
  exact (List.pairwise_append.mp hpw2).2.2 r hr s hsd

theorem top_bottom_complementary (mr : List BranchRow)
    (hlen : mr.length = 6)
    (hdist : mr.Pairwise (fun a b => avgQ a ≠ avgQ b)) :
    ((sortLe leAvgDesc mr).take 3 ++ (sortLe leAvgAsc mr).take 3).Perm mr := by
  have hsymm : Symmetric (fun a b : BranchRow => avgQ a ≠ avgQ b) :=
    fun a b h => h.symm
  have hpermD : (sortLe leAvgDesc mr).Perm mr := sortLe_perm _ _
  have hpermA : (sortLe leAvgAsc mr).Perm mr := sortLe_perm _ _
  have hdistD : (sortLe leAvgDesc mr).Pairwise (fun a b => avgQ a ≠ avgQ b) :=
    (hpermD.pairwise_iff (fun h => hsymm h)).mpr hdist
  have hdistA : (sortLe leAvgAsc mr).Pairwise (fun a b => avgQ a ≠ avgQ b) :=
    (hpermA.pairwise_iff (fun h => hsymm h)).mpr hdist
  have hstrictD : (sortLe leAvgDesc mr).Pairwise (fun a b => avgQ b < avgQ a) :=
    ((sortDesc_pairwise mr).and hdistD).imp
      (fun h => lt_of_le_of_ne h.1 h.2.symm)
  have hstrictA : (sortLe leAvgAsc mr).Pairwise (fun a b => avgQ a < avgQ b) :=
    ((sortAsc_pairwise mr).and hdistA).imp
      (fun h => lt_of_le_of_ne h.1 h.2)
  have hstrictArev : (sortLe leAvgAsc mr).reverse.Pairwise (fun a b => avgQ b < avgQ a) :=
    List.pairwise_reverse.mpr hstrictA
  have hperm2 : (sortLe leAvgDesc mr).Perm (sortLe leAvgAsc mr).reverse :=
    hpermD.trans (hpermA.symm.trans (List.reverse_perm _).symm)
  haveI : IsAntisymm BranchRow (fun a b => avgQ b < avgQ a) :=
    ⟨fun _ _ h1 h2 => absurd h1 (lt_asymm h2)⟩
  have hDA : sortLe leAvgDesc mr = (sortLe leAvgAsc mr).reverse :=
    List.eq_of_perm_of_sorted hperm2 hstrictD hstrictArev
  have hlA : (sortLe leAvgAsc mr).length = 6 := hpermA.length_eq.trans hlen
  have htake : (sortLe leAvgAsc mr).reverse.take 3 =
      ((sortLe leAvgAsc mr).drop 3).reverse := by
    have hsplit : (sortLe leAvgAsc mr).reverse =
        ((sortLe leAvgAsc mr).drop 3).reverse ++ ((sortLe leAvgAsc mr).take 3).reverse := by
      rw [← List.reverse_append, List.take_append_drop]
    rw [hsplit]
    refine List.take_left' ?_
    rw [List.length_reverse, List.length_drop, hlA]
  have heq : (sortLe leAvgDesc mr).take 3 ++ (sortLe leAvgAsc mr).take 3 =
      ((sortLe leAvgAsc mr).drop 3).reverse ++ (sortLe leAvgAsc mr).take 3 := by
    rw [hDA, htake]
  rw [heq]
  have p1 : (((sortLe leAvgAsc mr).drop 3).reverse ++ (sortLe leAvgAsc mr).take 3).Perm
      ((sortLe leAvgAsc mr).drop 3 ++ (sortLe leAvgAsc mr).take 3) :=
    (List.reverse_perm _).append_right _
  have p2 : ((sortLe leAvgAsc mr).drop 3 ++ (sortLe leAvgAsc mr).take 3).Perm
      ((sortLe leAvgAsc mr).take 3 ++ (sortLe leAvgAsc mr).drop 3) :=
    List.perm_append_comm
  have p4 : ((sortLe leAvgAsc mr).take 3 ++ (sortLe leAvgAsc mr).drop 3).Perm mr := by
    rw [List.take_append_drop 3 (sortLe leAvgAsc mr)]
    exact hpermA
  exact p1.trans (p2.trans p4)

theorem scanLines_falsy (p m w y : String) :
    ∀ (ls : List (List Char)) (cur : Option String),
      truthy cur = false → (∀ l ∈ ls, isHeader l = false) →
      scanLines p m w y cur ls = .ok [] := by
  intro ls
  induction ls with
  | nil => intro cur _ _; rfl
  | cons l ls ih =>
    intro cur ht h
    simp only [scanLines]
    rw [if_neg (by simp [h l (List.mem_cons_self l ls)])]
    rw [if_neg (by simp [ht])]
    exact ih cur ht (fun x hx => h x (List.mem_cons_of_mem l hx))

/- ============================== Claims ================================= -/

/-- Input table for the C1 counterexample: two single-report branches whose
reports fall in the same week. -/
def dfC1 : List Row :=
  [{ Year := some 2025, Month := some "July", Constituency := some "C1",
     Branch := some "B1", Attendance := some 4, Target := some 10, Week := some 1 },
   { Year := some 2025, Month := some "July", Constituency := some "C1",
     Branch := some "B2", Attendance := some 6, Target := some 12, Week := some 1 }]

/-- C1 counterexample: with two records in the same week, the code computes
Reports_Count = 1 (the number of distinct weeks), not 2 (the number of
records in the group), so avg_attendance is 10.0 (not 5.0) and target 22
(not 11). -/
theorem claim_C1_counterexample :
    reportsCount (cleanRows dfC1) (2025, "July", "C1") = 1 ∧
    (cgroup (cleanRows dfC1) (2025, "July", "C1")).length = 2 ∧
    lookupC (constituency_monthly dfC1) (2025, "July", "C1") =
      some { Year := 2025, Month := "July", Constituency := "C1",
             Unique_Branches := 2, Monthly_Attendance_Avg := .num 10,
             Target := .num 22, Attendance_Rate := .num 45.45 } := by decide

/-- C1 (amended): the constituency rollup groups by (year, month,
constituency); report_count is the number of DISTINCT Week values of the
group (Week aggregated with nunique), not the number of records;
avg_attendance = round2(sum attendance / report_count), target =
round0(sum target / report_count), rate derived from those two.  Stated
for groups with at least one reported week and integer-valued data. -/
theorem claim_C1_amended (df : List Row) (y : ℤ) (mo co : String)
    (hk : some (y, mo, co) ∈ (cleanRows df).map ckeyOf)
    (hrep : 0 < reportsCount (cleanRows df) (y, mo, co))
    (hatt : ∀ q ∈ cgAtts (cleanRows df) (y, mo, co), q.den = 1)
    (htgt : ∀ q ∈ cgTgts (cleanRows df) (y, mo, co), q.den = 1) :
    ∃ row, lookupC (constituency_monthly df) (y, mo, co) = some row ∧
      row.Unique_Branches = cBranches (cleanRows df) (y, mo, co) ∧
      row.Monthly_Attendance_Avg = PVal.num (roundTo 2
        ((cgAtts (cleanRows df) (y, mo, co)).sum /
          (reportsCount (cleanRows df) (y, mo, co) : ℚ))) ∧
      row.Target = PVal.num (roundTo 0
        ((cgTgts (cleanRows df) (y, mo, co)).sum /
          (reportsCount (cleanRows df) (y, mo, co) : ℚ))) ∧
      row.Attendance_Rate =
        ((row.Monthly_Attendance_Avg.divP row.Target).mulC 100).roundP 2 := by
  have hsa : (cgAtts (cleanRows df) (y, mo, co)).sum.den = 1 := listSum_den_one _ hatt
  have hst : (cgTgts (cleanRows df) (y, mo, co)).sum.den = 1 := listSum_den_one _ htgt
  have hrq : ((reportsCount (cleanRows df) (y, mo, co) : ℕ) : ℚ) ≠ 0 := by
    simp [Nat.pos_iff_ne_zero.mp hrep]
  refine ⟨mkConstRow (cleanRows df) (y, mo, co),
    lookupC_constituency_monthly df _ hk, rfl, ?_, ?_, rfl⟩
  · show cAvg (cleanRows df) (y, mo, co) = _
    simp only [cAvg, PVal.divP]
    rw [if_neg hrq]
    simp only [PVal.roundP]
    rw [roundTo_den_one 2 _ hsa]
  · show cTgt (cleanRows df) (y, mo, co) = _
    simp only [cTgt, PVal.divP]
    rw [if_neg hrq]
    simp only [PVal.roundP]
    rw [roundTo_den_one 2 _ hst]

/-- Input table for the C1 witness: the same two single-report branches, now
reporting in distinct weeks. -/
def dfC1w : List Row :=
  [{ Year := some 2025, Month := some "July", Constituency := some "C1",
     Branch := some "B1", Attendance := some 4, Target := some 10, Week := some 1 },
   { Year := some 2025, Month := some "July", Constituency := some "C1",
     Branch := some "B2", Attendance := some 6, Target := some 12, Week := some 2 }]

/-- C1 witness: on the amended reading, two single-report branches in
distinct weeks with attendances 4 and 6 and targets 10 and 12 yield
report_count 2, avg_attendance 5.0 and target 11. -/
theorem claim_C1_witness :
    reportsCount (cleanRows dfC1w) (2025, "July", "C1") = 2 ∧
    ∃ row, lookupC (constituency_monthly dfC1w) (2025, "July", "C1") = some row ∧
      row.Monthly_Attendance_Avg = PVal.num 5 ∧ row.Target = PVal.num 11 := by
  obtain ⟨row, hl, _, havg, htgt, _⟩ :=
    claim_C1_amended dfC1w 2025 "July" "C1" (by decide) (by decide) (by decide) (by decide)
  exact ⟨by decide, row, hl, havg.trans (by decide), htgt.trans (by decide)⟩

/-- Input table for C2: a single report with a target of 0. -/
def dfC2 : List Row :=
  [{ Year := some 2025, Month := some "July", Constituency := some "C1",
     Branch := some "B1", Attendance := some 5, Target := some 0, Week := some 1 }]

/-- C2: at a branch-monthly group whose derived target is 0 the code does
NOT guard the rate: it computes avg/target*100 by float division, which
silently yields positive infinity, and that infinite rate value flows
unchanged into the ranked top-performers output. -/
theorem claim_C2_zero_target_rate_is_infinity :
    lookupB (branch_monthly dfC2) (2025, "July", "C1", "B1") =
      some { Year := 2025, Month := "July", Constituency := "C1", Branch := "B1",
             Monthly_Attendance_Avg := .num 5, Target := .num 0,
             Attendance_Rate := .inf } ∧
    topPerformersFor (branch_monthly dfC2) "July" 5 =
      [{ Year := 2025, Month := "July", Constituency := "C1", Branch := "B1",
         Monthly_Attendance_Avg := .num 5, Target := .num 0,
         Attendance_Rate := .inf }] := by decide

/-- C3 counterexample: a record line that matches the grammar but carries a
zero target makes the parser raise ZeroDivisionError (modelled as
Except.error) instead of returning a record list. -/
theorem claim_C3_counterexample :
    parse_attendance_data "*A*\n👉🏾B - 5/0" "p" "m" "w" "y" = .error () := by decide

/-- C3 (amended): the parser returns a record list without raising for
every input in which no processed line both matches the record grammar and
carries a zero target; on such inputs every non-empty line either produces
a record or is silently dropped.  A grammar-matching line with target 0
raises ZeroDivisionError. -/
theorem claim_C3_amended (data pastor month week year : String)
    (h : ∀ l ∈ processedLines data, zeroTargetLine l = false) :
    ∃ recs, parse_attendance_data data pastor month week year = .ok recs :=
  scanLines_no_zero_total pastor month week year (processedLines data) none h

/-- C3 witness: a text with a header, a valid record line, a malformed
record line and a junk line parses without raising. -/
theorem claim_C3_witness :
    ∃ recs, parse_attendance_data "*A*\n👉🏾B - 5/10\n👉🏾junk\nnoise" "p" "m" "w" "y" =
      .ok recs :=
  claim_C3_amended "*A*\n👉🏾B - 5/10\n👉🏾junk\nnoise" "p" "m" "w" "y" (by decide)

/-- Input table for the C4 witness: one branch with weekly attendances
4, 6, 8 and targets 10, 10, 12. -/
def dfC4 : List Row :=
  [{ Year := some 2025, Month := some "July", Constituency := some "C1",
     Branch := some "B1", Attendance := some 4, Target := some 10, Week := some 1 },
   { Year := some 2025, Month := some "July", Constituency := some "C1",
     Branch := some "B1", Attendance := some 6, Target := some 10, Week := some 2 },
   { Year := some 2025, Month := some "July", Constituency := some "C1",
     Branch := some "B1", Attendance := some 8, Target := some 12, Week := some 3 }]

/-- C4: the branch rollup groups by (year, month, constituency, branch);
for every key present in the cleaned table, the output row carries the
mean of the attendance values of the group rounded to 2 decimals, the maximum
of the target values of the group (exactly, for integer-valued targets), and
rate = avg/target*100 rounded to 2 decimals. -/
theorem claim_C4_branch_rollup (df : List Row) (y : ℤ) (mo co br : String)
    (hk : some (y, mo, co, br) ∈ (cleanRows df).map bkeyOf)
    (hint : ∀ t ∈ btgtsOf (cleanRows df) (y, mo, co, br), t.den = 1) :
    ∃ row, lookupB (branch_monthly df) (y, mo, co, br) = some row ∧
      row.Year = y ∧ row.Month = mo ∧ row.Constituency = co ∧ row.Branch = br ∧
      row.Monthly_Attendance_Avg = PVal.num (roundTo 2
        ((battsOf (cleanRows df) (y, mo, co, br)).sum /
          ((battsOf (cleanRows df) (y, mo, co, br)).length : ℚ))) ∧
      (∀ t : ℚ, listMax (btgtsOf (cleanRows df) (y, mo, co, br)) = some t →
        row.Target = PVal.num t) ∧
      row.Attendance_Rate =
        ((row.Monthly_Attendance_Avg.divP row.Target).mulC 100).roundP 2 := by
  refine ⟨mkBranchRow (cleanRows df) (y, mo, co, br),
    lookupB_branch_monthly df _ hk, rfl, rfl, rfl, rfl, ?_, ?_, rfl⟩
  · rcases List.mem_map.mp hk with ⟨r, hr, hkey⟩
    have hrg : r ∈ bgroup (cleanRows df) (y, mo, co, br) := by
      unfold bgroup
      rw [List.mem_filter]
      exact ⟨hr, by simp [hkey]⟩
    have hatt : ∃ a, r.Attendance = some a := by
      unfold cleanRows at hr
      rw [List.mem_filter] at hr
      have h2 := hr.2
      simp only [Bool.and_eq_true, Option.isSome_iff_exists] at h2
      exact h2.2
    obtain ⟨a, ha⟩ := hatt
    have hmem : a ∈ battsOf (cleanRows df) (y, mo, co, br) := by
      unfold battsOf
      exact List.mem_filterMap.mpr ⟨r, hrg, ha⟩
    have hne : (battsOf (cleanRows df) (y, mo, co, br)).isEmpty = false := by
      cases hl : battsOf (cleanRows df) (y, mo, co, br) with
      | nil => rw [hl] at hmem; cases hmem
      | cons _ _ => rfl
    show bAvg (cleanRows df) (y, mo, co, br) = _
    unfold bAvg
    rw [hne]
    simp
  · intro t hmax
    have htd : t.den = 1 := hint t (listMax_mem _ t hmax)
    show bTgt (cleanRows df) (y, mo, co, br) = _
    unfold bTgt
    rw [hmax]
    show PVal.num (roundTo 2 t) = PVal.num t
    rw [roundTo_den_one 2 t htd]

/-- C4 witness: weekly attendances 4, 6, 8 with targets 10, 10, 12 for one
key yield avg_attendance 6.0, target 12 and rate 50.0. -/
theorem claim_C4_witness :
    ∃ row, lookupB (branch_monthly dfC4) (2025, "July", "C1", "B1") = some row ∧
      row.Monthly_Attendance_Avg = PVal.num 6 ∧ row.Target = PVal.num 12 ∧
      row.Attendance_Rate = PVal.num 50 := by
  obtain ⟨row, hl, _, _, _, _, havg, htgt, hrate⟩ :=
    claim_C4_branch_rollup dfC4 2025 "July" "C1" "B1" (by decide) (by decide)
  have h6 : row.Monthly_Attendance_Avg = PVal.num 6 := havg.trans (by decide)
  have h12 : row.Target = PVal.num 12 := htgt 12 (by decide)
  refine ⟨row, hl, h6, h12, ?_⟩
  rw [hrate, h6, h12]
  decide

/-- C5 counterexample: six rows of one month with equal averages; with
ties broken by first occurrence (pandas keep first), top-3 and bottom-3
both select the first three rows, so they are not complementary. -/
def mkRowC5 (br : String) (q : ℚ) : BranchRow :=
  { Year := 2025, Month := "July", Constituency := "C1", Branch := br,
    Monthly_Attendance_Avg := .num q, Target := .num 10,
    Attendance_Rate := .num 50 }

/-- The all-ties table for the C5 counterexample. -/
def tblC5 : List BranchRow :=
  [mkRowC5 "B1" 5, mkRowC5 "B2" 5, mkRowC5 "B3" 5,
   mkRowC5 "B4" 5, mkRowC5 "B5" 5, mkRowC5 "B6" 5]

/-- C5 counterexample: for this 6-row month, requesting top-3 and bottom-3
returns the same three rows, and their concatenation is not a permutation
of the rows of the month: the claimed complementarity fails under ties. -/
theorem claim_C5_counterexample :
    (monthRows tblC5 "July").length = 6 ∧
    topPerformersFor tblC5 "July" 3 = [mkRowC5 "B1" 5, mkRowC5 "B2" 5, mkRowC5 "B3" 5] ∧
    lowPerformersFor tblC5 "July" 3 = [mkRowC5 "B1" 5, mkRowC5 "B2" 5, mkRowC5 "B3" 5] ∧
    ¬ (topPerformersFor tblC5 "July" 3 ++ lowPerformersFor tblC5 "July" 3).Perm
        (monthRows tblC5 "July") := by decide

/-- C5 (amended): for every branch-rollup table and month value, the
ranker returns the n rows with the largest (and separately the smallest)
average attendance among ALL rows of that month (globally across
constituencies): every month row left out of the top selection has an
average no larger than every selected row, and every month row left out
of the bottom selection has an average no smaller than every selected
row.  The top selection is sorted descending and the bottom selection
ascending by raw average attendance, with ties resolved stably by the
incoming row order (the sort preserves the original order within every
class of equal averages); top-n and bottom-n have length
min n (month size); and for 6 rows of one month with pairwise distinct
averages, top-3 and bottom-3 are exactly complementary. -/
theorem claim_C5_ranker (tbl : List BranchRow) (mo : String) (n : ℕ) :
    (topPerformersFor tbl mo n).length = min n (monthRows tbl mo).length ∧
    (lowPerformersFor tbl mo n).length = min n (monthRows tbl mo).length ∧
    (∀ r ∈ topPerformersFor tbl mo n, r ∈ monthRows tbl mo) ∧
    (∀ r ∈ lowPerformersFor tbl mo n, r ∈ monthRows tbl mo) ∧
    (∀ r ∈ topPerformersFor tbl mo n, ∀ s ∈ monthRows tbl mo,
      s ∉ topPerformersFor tbl mo n → avgQ s ≤ avgQ r) ∧
    (∀ r ∈ lowPerformersFor tbl mo n, ∀ s ∈ monthRows tbl mo,
      s ∉ lowPerformersFor tbl mo n → avgQ r ≤ avgQ s) ∧
    (topPerformersFor tbl mo n).Pairwise (fun a b => avgQ b ≤ avgQ a) ∧
    (lowPerformersFor tbl mo n).Pairwise (fun a b => avgQ a ≤ avgQ b) ∧
    (∀ q : ℚ, (sortLe leAvgDesc (monthRows tbl mo)).filter (fun r => decide (avgQ r = q)) =
        (monthRows tbl mo).filter (fun r => decide (avgQ r = q))) ∧
    (∀ q : ℚ, (sortLe leAvgAsc (monthRows tbl mo)).filter (fun r => decide (avgQ r = q)) =
        (monthRows tbl mo).filter (fun r => decide (avgQ r = q))) ∧
    ((monthRows tbl mo).length = 6 → n = 3 →
      (monthRows tbl mo).Pairwise (fun a b => avgQ a ≠ avgQ b) →
      (topPerformersFor tbl mo n ++ lowPerformersFor tbl mo n).Perm (monthRows tbl mo)) := by
  refine ⟨?_, ?_, ?_, ?_, ?_, ?_, ?_, ?_, ?_, ?_, ?_⟩
  · show ((sortLe leAvgDesc (monthRows tbl mo)).take n).length = _
    rw [List.length_take, length_sortLe]
  · show ((sortLe leAvgAsc (monthRows tbl mo)).take n).length = _
    rw [List.length_take, length_sortLe]
  · intro r hr
    exact (mem_sortLe leAvgDesc r _).mp (List.mem_of_mem_take hr)
  · intro r hr
    exact (mem_sortLe leAvgAsc r _).mp (List.mem_of_mem_take hr)
  · exact top_selection_maximal (monthRows tbl mo) n
  · exact low_selection_minimal (monthRows tbl mo) n
  · exact List.Pairwise.sublist (List.take_sublist n _) (sortDesc_pairwise (monthRows tbl mo))
  · exact List.Pairwise.sublist (List.take_sublist n _) (sortAsc_pairwise (monthRows tbl mo))
  · intro q
    exact filter_sortLe leAvgDesc_of_eq q (monthRows tbl mo)
  · intro q
    exact filter_sortLe leAvgAsc_of_eq q (monthRows tbl mo)
  · intro hlen hn hdist
    subst hn
    exact top_bottom_complementary (monthRows tbl mo) hlen hdist

/-- The distinct-averages table for the C5 witness. -/
def tblC5w : List BranchRow :=
  [mkRowC5 "B1" 9, mkRowC5 "B2" 4, mkRowC5 "B3" 7,
   mkRowC5 "B4" 2, mkRowC5 "B5" 8, mkRowC5 "B6" 6]

/-- C5 witness: on 6 rows of one month with pairwise distinct averages,
top-3 and bottom-3 together are a permutation of the rows of the month,
and every month row outside the top-3 has an average no larger than every
selected top row. -/
theorem claim_C5_witness :
    (topPerformersFor tblC5w "July" 3 ++ lowPerformersFor tblC5w "July" 3).Perm
      (monthRows tblC5w "July") ∧
    (∀ r ∈ topPerformersFor tblC5w "July" 3, ∀ s ∈ monthRows tblC5w "July",
      s ∉ topPerformersFor tblC5w "July" 3 → avgQ s ≤ avgQ r) := by
  obtain ⟨-, -, -, -, hsel, -, -, -, -, -, hcomp⟩ := claim_C5_ranker tblC5w "July" 3
  exact ⟨hcomp (by decide) rfl (by decide), hsel⟩

/-- C6: parsing a header line followed by one valid record line yields
exactly one record whose rate is round(attendance/target*100, 2), e.g.
header A and record line B - 5/10 give one record with rate 50.0; and for
every parse result, every generated record with positive target has
rate = round(attendance/target*100, 2). -/
theorem claim_C6_rate_formula :
    (∀ pastor month week year : String,
      parse_attendance_data "*A*\n👉🏾B - 5/10" pastor month week year =
        .ok [{ Constituency := "A", Branch := "B", Pastor := pastor, Attendance := 5,
               Target := 10, Attendance_rate := 50, Month := month, Week := week,
               Year := year }]) ∧
    (∀ (data pastor month week year : String) (recs : List Record),
      parse_attendance_data data pastor month week year = .ok recs →
      ∀ r ∈ recs, 0 < r.Target →
        r.Attendance_rate = roundTo 2 ((r.Attendance : ℚ) / (r.Target : ℚ) * 100)) := by
  constructor
  · intro pastor month week year
    rfl
  · intro data pastor month week year recs h r hr _
    exact (scanLines_records pastor month week year (processedLines data) none recs h r hr).2

/-- C6 witness: the concrete header-plus-record text parses to the single
expected record, and its rate satisfies the rate formula with value 50. -/
theorem claim_C6_witness :
    parse_attendance_data "*A*\n👉🏾B - 5/10" "p" "m" "w" "y" =
      .ok [{ Constituency := "A", Branch := "B", Pastor := "p", Attendance := 5,
             Target := 10, Attendance_rate := 50, Month := "m", Week := "w",
             Year := "y" }] ∧
    roundTo 2 (((5 : ℕ) : ℚ) / ((10 : ℕ) : ℚ) * 100) = 50 := by
  have h1 := claim_C6_rate_formula.1 "p" "m" "w" "y"
  refine ⟨h1, ?_⟩
  have h2 := claim_C6_rate_formula.2 "*A*\n👉🏾B - 5/10" "p" "m" "w" "y" _ h1
  have h3 := h2 _ (List.mem_singleton.mpr rfl) (by decide)
  exact h3.symm

/-- C7: every record line seen while no constituency has been established
is silently dropped, so an input block consisting only of record lines
parses, without raising, to the empty record list. -/
theorem claim_C7_orphan_records_dropped (data pastor month week year : String)
    (h : ∀ l ∈ processedLines data, startsMarker l = true) :
    parse_attendance_data data pastor month week year = .ok [] :=
  scanLines_all_marker pastor month week year (processedLines data) h

/-- C7 witness: two orphan record lines (one of them with a zero target,
which would raise if a constituency were current) parse to the empty list. -/
theorem claim_C7_witness :
    parse_attendance_data "👉🏾B - 5/10\n👉🏾C - 3/0" "p" "m" "w" "y" = .ok [] :=
  claim_C7_orphan_records_dropped "👉🏾B - 5/10\n👉🏾C - 3/0" "p" "m" "w" "y" (by decide)

/-- C8: inserting one malformed record line (a line that starts with the
record marker but does not match the record grammar) anywhere between two
chunks of input text leaves the parser output unchanged: the line is
silently dropped and adjacent lines produce exactly the same records. -/
theorem claim_C8_malformed_dropped (pre lstr post pastor month week year : String)
    (h0 : '\n' ∉ lstr.data)
    (h1 : startsMarker (trimChars lstr.data) = true)
    (h2 : matchBranch (trimChars lstr.data) = none) :
    parse_attendance_data (pre ++ "\n" ++ lstr ++ "\n" ++ post) pastor month week year =
      parse_attendance_data (pre ++ "\n" ++ post) pastor month week year := by
  unfold parse_attendance_data
  have hmid : processedLines lstr = [trimChars lstr.data] := by
    unfold processedLines
    rw [splitNl_no_newline lstr.data h0]
    have hne : (trimChars lstr.data).isEmpty = false := by
      cases hT : trimChars lstr.data with
      | nil => rw [hT] at h1; simp [startsMarker, emojiMarker, List.isPrefixOf] at h1
      | cons c cs => rfl
    simp [hne]
  have e1 : processedLines (pre ++ "\n" ++ lstr ++ "\n" ++ post) =
      processedLines pre ++ (trimChars lstr.data :: processedLines post) := by
    rw [processedLines_append (pre ++ "\n" ++ lstr) post,
      processedLines_append pre lstr, hmid]
    simp
  rw [e1, processedLines_append pre post]
  exact scanLines_skip_malformed pastor month week year _ h1 h2
    (processedLines pre) none (processedLines post)

/-- C8 witness: inserting the malformed record line between a header and a
valid record line does not change the parse result. -/
theorem claim_C8_witness :
    parse_attendance_data ("*A*" ++ "\n" ++ "👉🏾oops" ++ "\n" ++ "👉🏾C - 7/10")
        "p" "m" "w" "y" =
      parse_attendance_data ("*A*" ++ "\n" ++ "👉🏾C - 7/10") "p" "m" "w" "y" :=
  claim_C8_malformed_dropped "*A*" "👉🏾oops" "👉🏾C - 7/10" "p" "m" "w" "y"
    (by decide) (by decide) (by decide)

/-- C9: the cleaning step keeps exactly the rows whose Constituency, Branch
and Attendance cells are present — a row missing only Target or Week is
retained — and every retained row belongs to its group in both rollups
(so it participates in both aggregations, which are computed from the
cleaned table). -/
theorem claim_C9_dropna (df : List Row) (r : Row) :
    (r ∈ cleanRows df ↔
      r ∈ df ∧ r.Constituency.isSome ∧ r.Branch.isSome ∧ r.Attendance.isSome) ∧
    (∀ k : BKey, r ∈ cleanRows df → bkeyOf r = some k → r ∈ bgroup (cleanRows df) k) ∧
    (∀ k : CKey, r ∈ cleanRows df → ckeyOf r = some k → r ∈ cgroup (cleanRows df) k) := by
  refine ⟨?_, ?_, ?_⟩
  · unfold cleanRows
    rw [List.mem_filter]
    simp [Bool.and_eq_true, and_assoc]
  · intro k hr hk
    unfold bgroup
    rw [List.mem_filter]
    exact ⟨hr, by simp [hk]⟩
  · intro k hr hk
    unfold cgroup
    rw [List.mem_filter]
    exact ⟨hr, by simp [hk]⟩

/-- A row with Target and Week missing but the three key cells present. -/
def rowC9 : Row :=
  { Year := some 2025, Month := some "July", Constituency := some "C1",
    Branch := some "B1", Attendance := some 5, Target := none, Week := none }

/-- C9 witness: a row missing only Target and Week survives cleaning and
belongs to its branch-rollup and constituency-rollup groups. -/
theorem claim_C9_witness :
    rowC9 ∈ cleanRows [rowC9] ∧
    rowC9 ∈ bgroup (cleanRows [rowC9]) (2025, "July", "C1", "B1") ∧
    rowC9 ∈ cgroup (cleanRows [rowC9]) (2025, "July", "C1") := by
  have h := claim_C9_dropna [rowC9] rowC9
  have h1 : rowC9 ∈ cleanRows [rowC9] :=
    h.1.mpr ⟨List.mem_singleton.mpr rfl, by decide, by decide, by decide⟩
  exact ⟨h1, h.2.1 (2025, "July", "C1", "B1") h1 (by decide),
    h.2.2 (2025, "July", "C1") h1 (by decide)⟩

/-- C10: a header line made only of asterisks sets the current constituency
to the empty string, which Python treats as falsy exactly like having no
constituency: as long as no further header line appears, every following
line (record lines included) is silently dropped and the scan returns the
empty record list. -/
theorem claim_C10_empty_header (pastor month week year : String) (cur : Option String)
    (hdr : List Char) (ls : List (List Char))
    (hne : hdr ≠ []) (hstar : ∀ c ∈ hdr, c = '*') :
    scanLines pastor month week year cur (hdr :: ls) =
      scanLines pastor month week year (some "") ls ∧
    ((∀ l ∈ ls, isHeader l = false) →
      scanLines pastor month week year (some "") ls = .ok []) := by
  constructor
  · have hh : isHeader hdr = true := by
      cases hdr with
      | nil => exact absurd rfl hne
      | cons c cs =>
        have hc : c = '*' := hstar c (List.mem_cons_self c cs)
        subst hc
        have hlast : ('*' :: cs).getLast (by simp) = '*' :=
          hstar _ (List.getLast_mem (by simp))
        have hl2 : ('*' :: cs).getLast? = some '*' := by
          rw [List.getLast?_eq_getLast ('*' :: cs) (by simp), hlast]
        simp [isHeader, hl2]
    have hs : stripStars hdr = [] := by
      unfold stripStars
      have h1 : hdr.dropWhile (fun c => c == '*') = [] := by
        rw [List.dropWhile_eq_nil_iff]
        intro x hx
        simp [hstar x hx]
      rw [h1]
      rfl
    simp only [scanLines]
    rw [if_pos hh, hs]
  · intro hnb
    exact scanLines_falsy pastor month week year ls (some "") rfl hnb

/-- C10 witness: after the all-asterisk header, a following record line is
dropped and the scan yields no records. -/
theorem claim_C10_witness :
    scanLines "p" "m" "w" "y" none (['*', '*'] :: ["👉🏾B - 5/10".data]) =
      scanLines "p" "m" "w" "y" (some "") ["👉🏾B - 5/10".data] ∧
    scanLines "p" "m" "w" "y" (some "") ["👉🏾B - 5/10".data] = .ok [] := by
  have h := claim_C10_empty_header "p" "m" "w" "y" none ['*', '*']
    ["👉🏾B - 5/10".data] (by decide) (by decide)
  exact ⟨h.1, h.2 (by decide)⟩
